import Mathlib

/-!
Verification of the NewsVision scraping engine (src/news.py) against its
natural-language specification.  The definitions below are a shallow
embedding of `ScraperThread.run`, `ScraperThread.scrape_source` and
`ScraperThread.stop` (news.py lines 46-263).  External library behavior
(BeautifulSoup tree access, `urllib.parse.urljoin`, the `requests`
session/transport) is modelled explicitly where the engine depends on it;
the CSS selector engine is treated as the environment that supplies the
candidate element list.
-/

namespace NewsVision

/-- A news source configuration (`NewsSource.__init__`, news.py lines 38-43). -/
structure NewsSource where
  name : String
  url : String
  selectors : List String
deriving DecidableEq, Repr

/-- A parsed markup node: either a bare text node or a tagged element with
attributes and children.  Models the BeautifulSoup tree that
`scrape_source` walks. -/
inductive Node where
  | text : String → Node
  | elem : String → List (String × String) → List Node → Node
deriving Repr

/-- Tag name of a node; text nodes have no tag. -/
def Node.tag : Node → String
  | .text _ => ""
  | .elem t _ _ => t

mutual
/-- Concatenated text of a node and all its descendants, in document
order.  Models BeautifulSoup `get_text()`. -/
def Node.getText : Node → String
  | .text s => s
  | .elem _ _ cs => Node.getTextList cs

/-- Concatenated text of a list of sibling nodes. -/
def Node.getTextList : List Node → String
  | [] => ""
  | c :: cs => c.getText ++ Node.getTextList cs
end

mutual
/-- First element of a subtree, the root included, whose tag satisfies
`p` (preorder, document order). -/
def Node.selfOrDesc (p : String → Bool) : Node → Option Node
  | .text _ => none
  | .elem t a gs =>
    if p t then some (.elem t a gs) else Node.firstInList p gs

/-- First element in a sibling forest (searching each subtree in
preorder) whose tag satisfies `p`. -/
def Node.firstInList (p : String → Bool) : List Node → Option Node
  | [] => none
  | c :: cs =>
    match Node.selfOrDesc p c with
    | some r => some r
    | none => Node.firstInList p cs
end

/-- First element strictly below the given node (preorder, document
order) whose tag satisfies `p`.  Models BeautifulSoup `element.find`,
which searches descendants only. -/
def Node.findDesc (p : String → Bool) : Node → Option Node
  | .text _ => none
  | .elem _ _ cs => Node.firstInList p cs

/-- Attribute lookup on an element.  Models `element.get(key)`, which
returns `None` when the attribute is absent. -/
def Node.attr (n : Node) (key : String) : Option String :=
  match n with
  | .text _ => none
  | .elem _ attrs _ => (attrs.find? (fun kv => kv.1 == key)).map (fun kv => kv.2)

/-- `needle` occurs as a contiguous sublist of `hay`. -/
def charsContain (needle : List Char) : List Char → Bool
  | [] => needle.isPrefixOf []
  | c :: t => needle.isPrefixOf (c :: t) || charsContain needle t

/-- Substring test: `needle` occurs contiguously in `hay`.  Models the
Python `in` operator on strings. -/
def strContains (hay needle : String) : Bool :=
  charsContain needle.toList hay.toList

/-- Drop leading and trailing whitespace from a character list. -/
def trimChars (l : List Char) : List Char :=
  ((l.dropWhile Char.isWhitespace).reverse.dropWhile Char.isWhitespace).reverse

/-- Python `str.strip()`: remove leading and trailing whitespace. -/
def pyStrip (s : String) : String := String.mk (trimChars s.toList)

/-- Whitespace-run splitting of Python `str.split()`: `cur` accumulates
the current word reversed; empty pieces are dropped. -/
def wordsAux : List Char → List Char → List (List Char)
  | [], cur => if cur.isEmpty then [] else [cur.reverse]
  | c :: t, cur =>
    if c.isWhitespace then
      if cur.isEmpty then wordsAux t [] else cur.reverse :: wordsAux t []
    else wordsAux t (c :: cur)

/-- Rejoin words with single spaces. -/
def joinSpace : List (List Char) → List Char
  | [] => []
  | [w] => w
  | w :: ws => w ++ ' ' :: joinSpace ws

/-- Whitespace normalization `' '.join(title.split())` (news.py line
208): split on whitespace runs, drop empty pieces, rejoin with single
spaces. -/
def normalizeWs (s : String) : String :=
  String.mk (joinSpace (wordsAux s.toList []))

/-- ASCII lower-casing of one character (the blacklist terms are ASCII). -/
def charLower (c : Char) : Char :=
  if 65 ≤ c.toNat && c.toNat ≤ 90 then Char.ofNat (c.toNat + 32) else c

/-- Python `str.lower()` restricted to ASCII letters. -/
def strLower (s : String) : String := String.mk (s.toList.map charLower)

/-- The heading tags recognised at news.py line 195. -/
def headingTags : List String := ["h1", "h2", "h3", "h4", "h5", "h6"]

/-- The tags searched for nested title text at news.py line 201. -/
def nestedTags : List String := ["h1", "h2", "h3", "h4", "h5", "h6", "span", "div"]

/-- Raw (pre-normalization) title of a candidate element
(news.py lines 193-205): headings and anchors use their own text; an
anchor whose own text strips to empty falls back to the first nested
heading/span/div; anything else uses its own text. -/
def rawTitle (e : Node) : String :=
  if headingTags.contains e.tag then pyStrip e.getText
  else if e.tag == "a" then
    let t := pyStrip e.getText
    if t == "" then
      match Node.findDesc (fun s => nestedTags.contains s) e with
      | some n => pyStrip n.getText
      | none => ""
    else t
  else pyStrip e.getText

/-- The navigation/ads blacklist `skip_patterns` (news.py lines 215-217). -/
def skipPatterns : List String :=
  ["Home", "News", "Sports", "Business", "Opinion", "Entertainment",
   "Login", "Subscribe", "Advertisement", "More", "Latest", "Breaking",
   "Top Stories", "Read More", "View All", "Load More"]

/-- Case-insensitive blacklist membership:
`any(pattern.lower() in title.lower() for pattern in skip_patterns)`
(news.py line 219). -/
def isChromeTitle (t : String) : Bool :=
  skipPatterns.any (fun p => strContains (strLower t) (strLower p))

/-- First rejection filter (news.py line 211): empty, too short, or
already seen in this pass. -/
def dupOrShort (seen : List String) (t : String) : Bool :=
  t == "" || decide (t.length < 15) || seen.contains t

/-- Second rejection filter (news.py line 219): blacklisted chrome text
that is also short overall. -/
def chromeShort (t : String) : Bool :=
  isChromeTitle t && decide (t.length < 30)

/-- Split a URL character list at the first `://`, yielding the scheme
characters and the remainder. -/
def splitScheme : List Char → Option (List Char × List Char)
  | [] => none
  | ':' :: '/' :: '/' :: t => some ([], t)
  | c :: t => (splitScheme t).map (fun p => (c :: p.1, p.2))

/-- Characters of the authority: everything up to the first slash. -/
def takeToSlash : List Char → List Char
  | [] => []
  | '/' :: _ => []
  | c :: t => c :: takeToSlash t

/-- Prefix of a character list up to and including its last slash, if a
slash occurs at all. -/
def upToLastSlash : List Char → Option (List Char)
  | [] => none
  | c :: t =>
    match upToLastSlash t with
    | some r => some (c :: r)
    | none => if c == '/' then some ['/'] else none

/-- Scheme and authority of a URL, e.g. `https://example.com`; the URL
itself when it carries no scheme. -/
def originOf (url : String) : String :=
  match splitScheme url.toList with
  | some (s, r) => String.mk s ++ "://" ++ String.mk (takeToSlash r)
  | none => url

/-- The base URL up to and including the final slash of its path; with
no slash after the authority, the base with a slash appended. -/
def dirOf (url : String) : String :=
  match splitScheme url.toList with
  | some (s, r) =>
    match upToLastSlash r with
    | some d => String.mk s ++ "://" ++ String.mk d
    | none => url ++ "/"
  | none => url

/-- Modelled from the library: `urllib.parse.urljoin(base, rel)` for the
URL shapes this engine produces (no dot-segment or query handling):
network-path references keep the base scheme, absolute paths replace the
base path, other relative paths replace the last base path segment. -/
def urljoin (base rel : String) : String :=
  if rel = "" then base
  else if "//".toList.isPrefixOf rel.toList then
    match splitScheme base.toList with
    | some (s, _) => String.mk s ++ ":" ++ rel
    | none => rel
  else if "/".toList.isPrefixOf rel.toList then originOf base ++ rel
  else dirOf base ++ rel

/-- Raw href of a candidate element (news.py lines 225-231): an anchor
uses its own `href`; a non-anchor uses the `href` of its first descendant
anchor. -/
def rawHref (e : Node) : Option String :=
  if e.tag == "a" then e.attr "href"
  else
    match Node.findDesc (fun t => t == "a") e with
    | some a => a.attr "href"
    | none => none

/-- Resolved record URL (news.py lines 233-240): a non-empty href not
starting with `http` is joined onto the source entry URL; a missing or
empty href falls back to the source entry URL. -/
def recordLink (e : Node) (src : NewsSource) : String :=
  match rawHref e with
  | none => src.url
  | some l =>
    if l = "" then src.url
    else if "http".toList.isPrefixOf l.toList then l
    else urljoin src.url l

/-- An emitted headline record (news.py lines 238-243). -/
structure Headline where
  title : String
  url : String
  source : String
  timestamp : String
deriving DecidableEq, Repr

/-- The extraction loop over candidate elements (news.py lines 186-247).
`count` is the number of records accepted so far, `seen` the
processed-titles set of this pass.  `clock` supplies the
`datetime.now()` timestamp string for the k-th accepted record. -/
def extractLoop (src : NewsSource) (maxH : Nat) (clock : Nat → String) :
    List Node → Nat → List String → List Headline
  | [], _, _ => []
  | e :: es, count, seen =>
    if maxH ≤ count then []
    else
      let title := normalizeWs (rawTitle e)
      if dupOrShort seen title then extractLoop src maxH clock es count seen
      else if chromeShort title then extractLoop src maxH clock es count seen
      else
        { title := title, url := recordLink e src, source := src.name,
          timestamp := clock count } ::
          extractLoop src maxH clock es (count + 1) (title :: seen)

/-- Full extraction pass for one source: fresh counter and fresh
seen-title set (news.py lines 186-187). -/
def extractAll (es : List Node) (src : NewsSource) (maxH : Nat)
    (clock : Nat → String) : List Headline :=
  extractLoop src maxH clock es 0 []

/-! ## Fetch client and orchestrator -/

/-- The default User-Agent header installed at news.py line 91. -/
def chromeUA : String :=
  "Mozilla/5.0 (Windows NT 10.0; Win64; x64) AppleWebKit/537.36 (KHTML, like Gecko) Chrome/121.0.0.0 Safari/537.36"

/-- The alternate User-Agent swapped in after a 403 (news.py line 127). -/
def safariUA : String :=
  "Mozilla/5.0 (Macintosh; Intel Mac OS X 10_15_7) AppleWebKit/605.1.15 (KHTML, like Gecko) Version/16.1 Safari/605.1.15"

/-- The Referer header value (news.py line 103): the source URL, or a
fixed fallback when the source URL is empty. -/
def refererFor (src : NewsSource) : String :=
  if src.url ≠ "" then src.url else "https://www.google.com/"

/-- Anti-bot classification (news.py line 111): hardened handling is
selected by URL substring match. -/
def isHardened (src : NewsSource) : Bool :=
  strContains src.url "indianexpress.com" ||
    strContains src.url "timesofindia.indiatimes.com"

/-- What one call of `session.get` does in the environment: either an
HTTP response with a status code, or a raised transport exception whose
`str()` is the carried message. -/
inductive AttemptOutcome where
  | status : Nat → AttemptOutcome
  | raises : String → AttemptOutcome
deriving DecidableEq, Repr

/-- Outcome of the fetch section of `scrape_source`. -/
inductive FetchOut where
  | ok
  | transportExc : String → FetchOut
  | blocked : Option Nat → FetchOut
  | httpStatus : Nat → FetchOut
deriving DecidableEq, Repr

/-- Qt signals emitted by `ScraperThread` (news.py lines 48-51). -/
inductive Event where
  | progress : Nat → Event
  | headlineFound : Headline → Event
  | errorOccurred : String → Event
  | finishedScraping : List Headline → Event
deriving DecidableEq, Repr

/-- One primitive observable step of the worker thread: a read of the
cooperative `is_running` flag, creation of a cookie session (with its
Referer header), one `session.get` attempt (session id, attempt index,
User-Agent in effect, resulting status or `none` for a raised transport
exception), a `time.sleep` (milliseconds), or a signal emission. -/
inductive Action where
  | checkFlag : Bool → Action
  | sessionNew : Nat → String → Action
  | attemptGet : Nat → Nat → String → Option Nat → Action
  | wait : Nat → Action
  | emit : Event → Action
deriving DecidableEq, Repr

/-- `max_attempts` (news.py line 116). -/
def maxAttempts : Nat := 3

/-- The hardened retry loop (news.py lines 119-135), with `fuel`
attempts remaining, `att` the current attempt index, `ua` the User-Agent
currently installed in the session, and `last` the last response status
seen (a raised `get` leaves it unchanged).  Returns the action trace and
the fetch outcome; the fuel-exhausted case is the post-loop check at
news.py lines 137-138. -/
def retryLoop (sid : Nat) (outs : List AttemptOutcome) :
    Nat → Nat → String → Option Nat → List Action × FetchOut
  | 0, _, _, last =>
    ([], if last == some 200 then FetchOut.ok else FetchOut.blocked last)
  | fuel + 1, att, ua, last =>
    match outs.getD att (AttemptOutcome.raises "no response") with
    | AttemptOutcome.status n =>
      let act := Action.attemptGet sid att ua (some n)
      if n == 200 then ([act], FetchOut.ok)
      else if n == 403 then
        let r := retryLoop sid outs fuel (att + 1) safariUA (some n)
        (act :: Action.wait 3000 :: r.1, r.2)
      else
        let r := retryLoop sid outs fuel (att + 1) ua (some n)
        (act :: Action.wait 1000 :: r.1, r.2)
    | AttemptOutcome.raises m =>
      let act := Action.attemptGet sid att ua none
      if fuel == 0 then ([act], FetchOut.transportExc m)
      else
        let r := retryLoop sid outs fuel (att + 1) ua last
        (act :: Action.wait 2000 :: r.1, r.2)

/-- Hardened fetch (news.py lines 110-138): a fixed pre-request delay,
then up to `maxAttempts` attempts starting from the default User-Agent. -/
def hardenedFetch (sid : Nat) (outs : List AttemptOutcome) :
    List Action × FetchOut :=
  let r := retryLoop sid outs maxAttempts 0 chromeUA none
  (Action.wait 2000 :: r.1, r.2)

/-- Standard fetch (news.py line 141 plus `raise_for_status` at line
143): one attempt; a 4xx/5xx status raises `HTTPError`. -/
def standardFetch (sid : Nat) (outs : List AttemptOutcome) :
    List Action × FetchOut :=
  match outs.getD 0 (AttemptOutcome.raises "no response") with
  | AttemptOutcome.raises m =>
    ([Action.attemptGet sid 0 chromeUA none], FetchOut.transportExc m)
  | AttemptOutcome.status n =>
    ([Action.attemptGet sid 0 chromeUA (some n)],
     if 400 ≤ n then FetchOut.httpStatus n else FetchOut.ok)

/-- Per-source environment for one run: the source configuration, the
transport behavior of successive `session.get` calls, whether the parser
chain succeeds, and the candidate elements the selector stage yields
(the CSS selector engine is external library code; its output is
supplied here). -/
structure SourceEnv where
  src : NewsSource
  outs : List AttemptOutcome
  parseOk : Bool
  elements : List Node

/-- The fetch section of `scrape_source` for one source. -/
def fetchSource (sid : Nat) (env : SourceEnv) : List Action × FetchOut :=
  if isHardened env.src then hardenedFetch sid env.outs
  else standardFetch sid env.outs

/-- Modelled from the library: the `str()` of a `requests` `HTTPError`
raised by `raise_for_status`, which begins with the status code. -/
def httpErrText (n : Nat) : String := toString n ++ " Error"

/-- Classification of a `requests.exceptions.RequestException` message
(news.py lines 249-255). -/
def requestErrMsg (name msg : String) : String :=
  if strContains msg "403" || strContains msg "Forbidden" then
    "Access denied to " ++ name ++
      ". The website may be blocking automated requests. Try using a VPN or contact the site for API access."
  else if strContains (strLower msg) "timeout" then
    "Timeout connecting to " ++ name ++ ". The website may be slow or unreachable."
  else "Network error accessing " ++ name ++ ": " ++ msg

/-- The blocked-after-retries message (news.py line 138). -/
def blockedMsg (name : String) (last : Option Nat) : String :=
  "Failed to access " ++ name ++ " after 3 attempts. Status: " ++
    (match last with | some n => toString n | none => "No response")

/-- Result of `scrape_source` (news.py lines 84-259): the returned
headline list, or the message of the exception it raises.  Fetch and
parse errors pass through the handlers at lines 249-257. -/
def scrapeResult (clock : Nat → String) (maxH : Nat) (env : SourceEnv) :
    Except String (List Headline) :=
  match (fetchSource 0 env).2 with
  | FetchOut.transportExc m => Except.error (requestErrMsg env.src.name m)
  | FetchOut.httpStatus n => Except.error (requestErrMsg env.src.name (httpErrText n))
  | FetchOut.blocked last =>
    Except.error ("Failed to scrape " ++ env.src.name ++ ": " ++
      blockedMsg env.src.name last)
  | FetchOut.ok =>
    if env.parseOk then Except.ok (extractAll env.elements env.src maxH clock)
    else Except.error ("Failed to scrape " ++ env.src.name ++
      ": Failed to parse HTML content")

/-- Action trace of `scrape_source`: session creation (news.py lines
106-108), the fetch attempts, then one `headline_found` emission per
accepted record (news.py line 246). -/
def scrapeTrace (clock : Nat → String) (sid : Nat) (maxH : Nat)
    (env : SourceEnv) : List Action :=
  Action.sessionNew sid (refererFor env.src) ::
    (fetchSource sid env).1 ++
      (match scrapeResult clock maxH env with
       | Except.ok hs => hs.map (fun h => Action.emit (Event.headlineFound h))
       | Except.error _ => [])

/-- Value of the cooperative `is_running` flag at its i-th read.  The
flag is cleared externally by `stop()` (news.py lines 261-263) and is
monotone: `stopAfter = some c` means the clearing lands before the c-th
check, `none` means the run is never cancelled. -/
def isRunningAt (stopAfter : Option Nat) (i : Nat) : Bool :=
  match stopAfter with
  | none => true
  | some c => decide (i < c)

/-- The main loop of `ScraperThread.run` (news.py lines 59-82): per
source, check the flag; scrape; on success extend the aggregate, emit
progress `int((i+1)/total*100)` and sleep; on an exception emit one
`error_occurred`; after the loop (or on a flag break) emit one
`finished_scraping` with the aggregate.  The float progress expression
is modelled by exact natural division `(i+1)*100/total`. -/
def runLoop (clock : Nat → String) (maxH total : Nat)
    (stopAfter : Option Nat) :
    List SourceEnv → Nat → List Headline → List Action
  | [], _, acc => [Action.emit (Event.finishedScraping acc)]
  | env :: rest, i, acc =>
    if isRunningAt stopAfter i then
      match scrapeResult clock maxH env with
      | Except.ok hs =>
        Action.checkFlag true :: scrapeTrace clock i maxH env ++
          (Action.emit (Event.progress ((i + 1) * 100 / total)) ::
           Action.wait 500 ::
           runLoop clock maxH total stopAfter rest (i + 1) (acc ++ hs))
      | Except.error m =>
        Action.checkFlag true :: scrapeTrace clock i maxH env ++
          (Action.emit (Event.errorOccurred
            ("Error scraping " ++ env.src.name ++ ": " ++ m)) ::
           runLoop clock maxH total stopAfter rest (i + 1) acc)
    else
      [Action.checkFlag false, Action.emit (Event.finishedScraping acc)]

/-- One full run of `ScraperThread.run` over a source list. -/
def runScraper (clock : Nat → String) (maxH : Nat) (envs : List SourceEnv)
    (stopAfter : Option Nat) : List Action :=
  runLoop clock maxH envs.length stopAfter envs 0 []

/-! ## Trace observers -/

/-- The emitted signal stream of a trace. -/
def eventsOf (tr : List Action) : List Event :=
  tr.filterMap fun a => match a with | Action.emit e => some e | _ => none

/-- Payloads of the terminal `finished_scraping` events. -/
def finalsOf (evs : List Event) : List (List Headline) :=
  evs.filterMap fun e =>
    match e with | Event.finishedScraping hs => some hs | _ => none

/-- Payloads of the `headline_found` events, in order. -/
def recordsOf (evs : List Event) : List Headline :=
  evs.filterMap fun e =>
    match e with | Event.headlineFound h => some h | _ => none

/-- Payloads of the `progress_update` events, in order. -/
def progressList (evs : List Event) : List Nat :=
  evs.filterMap fun e =>
    match e with | Event.progress p => some p | _ => none

/-- Number of `error_occurred` events. -/
def errorCount (evs : List Event) : Nat :=
  (evs.filterMap fun e =>
    match e with | Event.errorOccurred m => some m | _ => none).length

/-- Session ids allocated during a trace, in order. -/
def sessionIds (tr : List Action) : List Nat :=
  tr.filterMap fun a =>
    match a with | Action.sessionNew i _ => some i | _ => none

/-- Referer headers of the sessions created during a trace, in order. -/
def sessionReferers (tr : List Action) : List String :=
  tr.filterMap fun a =>
    match a with | Action.sessionNew _ r => some r | _ => none

/-- User-Agents used by successive `session.get` attempts, in order. -/
def attemptUAs (tr : List Action) : List String :=
  tr.filterMap fun a =>
    match a with | Action.attemptGet _ _ ua _ => some ua | _ => none

/-- Number of `session.get` attempts in a trace. -/
def attemptCount (tr : List Action) : Nat := (attemptUAs tr).length

/-- Whether a source's scrape raises. -/
def failsScrape (clock : Nat → String) (maxH : Nat) (env : SourceEnv) : Bool :=
  match scrapeResult clock maxH env with
  | Except.ok _ => false
  | Except.error _ => true

/-! ## Concrete fixtures used by the theorems -/

/-- A constant wall clock (all records stamped `"t0"`). -/
def clockT : Nat → String := fun _ => "t0"

/-- A headline element whose link sits on a nested anchor. -/
def elA : Node :=
  Node.elem "h3" []
    [Node.elem "a" [("href", "https://a.example/x")]
      [Node.text "Government announces new climate policy"]]

/-- A cooperative source. -/
def srcA : NewsSource := ⟨"A", "https://a.example/news", []⟩

/-- Environment for source A: one successful fetch, one headline. -/
def envA : SourceEnv := ⟨srcA, [AttemptOutcome.status 200], true, [elA]⟩

/-- Environment for source B: the single fetch attempt raises a timeout. -/
def envB : SourceEnv :=
  ⟨⟨"B", "https://b.example/news", []⟩, [AttemptOutcome.raises "Read timeout"],
    true, []⟩

/-- An anchor element carrying a relative href. -/
def elC : Node :=
  Node.elem "a" [("href", "/world/story-1")]
    [Node.text "Parliament passes the annual budget bill"]

/-- The source of the relative-link example, entry URL
`https://example.com/news`. -/
def srcC : NewsSource := ⟨"C", "https://example.com/news", []⟩

/-- Environment for source C: one successful fetch, one headline with a
relative link. -/
def envC : SourceEnv := ⟨srcC, [AttemptOutcome.status 200], true, [elC]⟩

/-- A hardened source answering 403, 403, then 200. -/
def envHard : SourceEnv :=
  ⟨⟨"IE", "https://indianexpress.com/section/india/", []⟩,
    [AttemptOutcome.status 403, AttemptOutcome.status 403,
     AttemptOutcome.status 200], true, []⟩

/-- The record source A produces. -/
def hA : Headline :=
  ⟨"Government announces new climate policy", "https://a.example/x", "A", "t0"⟩

/-- The record source C produces. -/
def hC : Headline :=
  ⟨"Parliament passes the annual budget bill",
    "https://example.com/world/story-1", "C", "t0"⟩

/-- A 20-character candidate containing the blacklist term. -/
def el20 : Node := Node.elem "h3" [] [Node.text "Breaking news test A"]

/-- A 40-character candidate containing the same blacklist term. -/
def el40 : Node :=
  Node.elem "h3" [] [Node.text "Breaking storms batter coastal towns now"]

/-! ## Extraction claims -/

/-- C3: after whitespace normalization a candidate title is rejected
exactly when its length is below 15, or it was already seen in this
pass, or it contains a blacklist substring case-insensitively and its
length is below 30; the 20-character title containing `Breaking` is
rejected (without consuming the budget), the 40-character one is kept. -/
theorem claim_C3_rejection_filters :
    (∀ (seen : List String) (t : String),
      (dupOrShort seen t || chromeShort t) =
        (decide (t.length < 15) || seen.contains t ||
          (isChromeTitle t && decide (t.length < 30)))) ∧
    extractAll [el20] srcA 5 clockT = [] ∧
    (extractAll [el40] srcA 5 clockT).map Headline.title =
      ["Breaking storms batter coastal towns now"] ∧
    (extractAll [el20, el40] srcA 1 clockT).map Headline.title =
      ["Breaking storms batter coastal towns now"] := by
  refine ⟨?_, by decide, by decide, by decide⟩
  intro seen t
  unfold dupOrShort chromeShort
  cases h : (t == "") with
  | true =>
    have ht : t = "" := by simpa using h
    subst ht
    simp
  | false =>
    simp [h, Bool.or_assoc]

/-- Invariant of the extraction loop: emitted titles avoid the incoming
seen set and never repeat. -/
lemma extractLoop_titles (src : NewsSource) (maxH : Nat)
    (clock : Nat → String) :
    ∀ (es : List Node) (count : Nat) (seen : List String),
      ((extractLoop src maxH clock es count seen).map Headline.title).Nodup ∧
      ∀ t ∈ (extractLoop src maxH clock es count seen).map Headline.title,
        t ∉ seen := by
  intro es
  induction es with
  | nil => intro count seen; simp [extractLoop]
  | cons e es ih =>
    intro count seen
    rw [extractLoop]
    by_cases hm : maxH ≤ count
    · simp [hm]
    · rw [if_neg hm]
      cases hd : dupOrShort seen (normalizeWs (rawTitle e)) with
      | true => simpa [hd] using ih count seen
      | false =>
        rw [if_neg (by simp [hd])]
        cases hch : chromeShort (normalizeWs (rawTitle e)) with
        | true => simpa [hch] using ih count seen
        | false =>
          rw [if_neg (by simp [hch])]
          have hmem : normalizeWs (rawTitle e) ∉ seen := by
            intro hin
            have hdd := hd
            simp [dupOrShort] at hdd
            exact hdd.2 hin
          obtain ⟨ihnd, ihfresh⟩ :=
            ih (count + 1) (normalizeWs (rawTitle e) :: seen)
          refine ⟨?_, ?_⟩
          · simp only [List.map_cons, List.nodup_cons]
            refine ⟨fun hin => ?_, ihnd⟩
            exact (ihfresh _ hin) (List.mem_cons_self _ _)
          · intro t ht
            simp only [List.map_cons, List.mem_cons] at ht
            rcases ht with rfl | ht
            · exact hmem
            · exact fun hs => (ihfresh t ht) (List.mem_cons_of_mem _ hs)

/-- C5: no two records of one source extraction pass share a normalized
title — each accepted title enters the seen set and later duplicates are
discarded. -/
theorem claim_C5_no_duplicate_titles (es : List Node) (src : NewsSource)
    (maxH : Nat) (clock : Nat → String) :
    ((extractAll es src maxH clock).map Headline.title).Nodup :=
  (extractLoop_titles src maxH clock es 0 []).1

/-- The content fields of a record (everything except the wall-clock
timestamp). -/
def headlineBody (h : Headline) : String × String × String :=
  (h.title, h.url, h.source)

/-- The extraction loop is deterministic in everything except the
timestamps it stamps from the clock. -/
lemma extractLoop_clock_irrelevant (src : NewsSource) (maxH : Nat)
    (c1 c2 : Nat → String) :
    ∀ (es : List Node) (count : Nat) (seen : List String),
      (extractLoop src maxH c1 es count seen).map headlineBody =
        (extractLoop src maxH c2 es count seen).map headlineBody := by
  intro es
  induction es with
  | nil => intro count seen; simp [extractLoop]
  | cons e es ih =>
    intro count seen
    rw [extractLoop, extractLoop]
    by_cases hm : maxH ≤ count
    · simp [hm]
    · cases hd : dupOrShort seen (normalizeWs (rawTitle e)) with
      | true => simpa [hm, hd] using ih count seen
      | false =>
        cases hch : chromeShort (normalizeWs (rawTitle e)) with
        | true => simpa [hm, hd, hch] using ih count seen
        | false =>
          simp only [if_neg hm, hd, hch, Bool.false_eq_true, if_false,
            List.map_cons]
          rw [ih (count + 1) (normalizeWs (rawTitle e) :: seen)]
          rfl

/-- C9 counterexample: two extraction passes over the same elements with
fresh seen sets but different wall clocks yield different record
sequences, because `capturedAt` is stamped from the clock. -/
theorem claim_C9_counterexample :
    extractAll [el40] srcA 5 (fun _ => "2024-01-01 00:00:00") ≠
      extractAll [el40] srcA 5 (fun _ => "2024-01-01 00:00:01") := by
  decide

/-- C9 (amended): re-running `extractAll` on the same element sequence
with the same maxCount and a fresh seen set yields record sequences
identical in order and in every field except the wall-clock timestamp;
with identical clock readings the sequences are fully identical. -/
theorem claim_C9_extraction_deterministic (es : List Node)
    (src : NewsSource) (maxH : Nat) (c1 c2 : Nat → String) :
    (extractAll es src maxH c1).map headlineBody =
      (extractAll es src maxH c2).map headlineBody ∧
    (extractAll es src maxH c1).map Headline.title =
      (extractAll es src maxH c2).map Headline.title ∧
    (extractAll es src maxH c1).length = (extractAll es src maxH c2).length := by
  have hb := extractLoop_clock_irrelevant src maxH c1 c2 es 0 []
  refine ⟨hb, ?_, ?_⟩
  · have h2 := congrArg (List.map Prod.fst) hb
    simpa [List.map_map, Function.comp, headlineBody] using h2
  · have h3 := congrArg List.length hb
    simpa using h3

/-! ## Link resolution claims -/

/-- A string with a non-empty right summand is non-empty. -/
lemma string_append_ne_empty (a b : String) (hb : b ≠ "") : a ++ b ≠ "" := by
  intro h
  apply hb
  have hd := congrArg String.data h
  rw [String.data_append] at hd
  rcases List.append_eq_nil.mp hd with ⟨-, h2⟩
  cases b with
  | mk l => cases h2; rfl

/-- Joining a non-empty relative reference never yields the empty URL. -/
lemma urljoin_ne_empty (base rel : String) (h : rel ≠ "") :
    urljoin base rel ≠ "" := by
  rw [urljoin, if_neg h]
  by_cases h2 : "//".toList.isPrefixOf rel.toList
  · rw [if_pos h2]
    cases hs : splitScheme base.toList with
    | none => exact h
    | some p => exact string_append_ne_empty _ _ h
  · rw [if_neg h2]
    by_cases h3 : "/".toList.isPrefixOf rel.toList
    · rw [if_pos h3]
      exact string_append_ne_empty _ _ h
    · rw [if_neg h3]
      exact string_append_ne_empty _ _ h

/-- C6: an anchor uses its own href; a non-anchor uses its first
descendant anchor's href; a relative href is resolved against the
source entry URL (`/world/story-1` on `https://example.com/news` gives
`https://example.com/world/story-1`); with no link at all the record
URL is the entry URL; the emitted URL is never empty when the entry URL
is not. -/
theorem claim_C6_link_resolution :
    recordLink elC srcC = "https://example.com/world/story-1" ∧
    recordLink (Node.elem "a" [("href", "https://x.example/a")]
      [Node.text "z"]) srcC = "https://x.example/a" ∧
    recordLink (Node.elem "div" []
      [Node.elem "span" [] [Node.text "y"],
       Node.elem "a" [("href", "https://y.example/b")] []]) srcC =
      "https://y.example/b" ∧
    (∀ src : NewsSource,
      recordLink (Node.elem "h3" [] [Node.text "no anchor here"]) src =
        src.url) ∧
    (∀ (e : Node) (src : NewsSource), src.url ≠ "" →
      recordLink e src ≠ "") := by
  refine ⟨by decide, by decide, by decide, fun src => rfl, ?_⟩
  intro e src hu
  rw [recordLink]
  cases hr : rawHref e with
  | none => exact hu
  | some l =>
    show (if l = "" then src.url
      else if "http".toList.isPrefixOf l.toList = true then l
      else urljoin src.url l) ≠ ""
    by_cases hl : l = ""
    · rw [if_pos hl]; exact hu
    · rw [if_neg hl]
      by_cases hp : "http".toList.isPrefixOf l.toList
      · rw [if_pos hp]; exact hl
      · rw [if_neg hp]
        exact urljoin_ne_empty src.url l hl

/-- Witness for C6 at concrete inputs. -/
theorem claim_C6_link_resolution_witness :
    recordLink elC srcC ≠ "" :=
  claim_C6_link_resolution.2.2.2.2 elC srcC (by decide)

/-! ## Observer distribution lemmas -/

@[simp] lemma eventsOf_nil : eventsOf [] = [] := rfl

@[simp] lemma eventsOf_cons_check (b : Bool) (tr : List Action) :
    eventsOf (Action.checkFlag b :: tr) = eventsOf tr := rfl

@[simp] lemma eventsOf_cons_session (i : Nat) (r : String) (tr : List Action) :
    eventsOf (Action.sessionNew i r :: tr) = eventsOf tr := rfl

@[simp] lemma eventsOf_cons_attempt (s n : Nat) (ua : String)
    (st : Option Nat) (tr : List Action) :
    eventsOf (Action.attemptGet s n ua st :: tr) = eventsOf tr := rfl

@[simp] lemma eventsOf_cons_wait (ms : Nat) (tr : List Action) :
    eventsOf (Action.wait ms :: tr) = eventsOf tr := rfl

@[simp] lemma eventsOf_cons_emit (e : Event) (tr : List Action) :
    eventsOf (Action.emit e :: tr) = e :: eventsOf tr := rfl

@[simp] lemma eventsOf_append (t u : List Action) :
    eventsOf (t ++ u) = eventsOf t ++ eventsOf u := by
  simp [eventsOf]

@[simp] lemma finalsOf_nil : finalsOf [] = [] := rfl

@[simp] lemma finalsOf_cons_progress (p : Nat) (evs : List Event) :
    finalsOf (Event.progress p :: evs) = finalsOf evs := rfl

@[simp] lemma finalsOf_cons_headline (h : Headline) (evs : List Event) :
    finalsOf (Event.headlineFound h :: evs) = finalsOf evs := rfl

@[simp] lemma finalsOf_cons_error (m : String) (evs : List Event) :
    finalsOf (Event.errorOccurred m :: evs) = finalsOf evs := rfl

@[simp] lemma finalsOf_cons_finished (hs : List Headline) (evs : List Event) :
    finalsOf (Event.finishedScraping hs :: evs) = hs :: finalsOf evs := rfl

@[simp] lemma finalsOf_append (t u : List Event) :
    finalsOf (t ++ u) = finalsOf t ++ finalsOf u := by
  simp [finalsOf]

@[simp] lemma recordsOf_nil : recordsOf [] = [] := rfl

@[simp] lemma recordsOf_cons_progress (p : Nat) (evs : List Event) :
    recordsOf (Event.progress p :: evs) = recordsOf evs := rfl

@[simp] lemma recordsOf_cons_headline (h : Headline) (evs : List Event) :
    recordsOf (Event.headlineFound h :: evs) = h :: recordsOf evs := rfl

@[simp] lemma recordsOf_cons_error (m : String) (evs : List Event) :
    recordsOf (Event.errorOccurred m :: evs) = recordsOf evs := rfl

@[simp] lemma recordsOf_cons_finished (hs : List Headline) (evs : List Event) :
    recordsOf (Event.finishedScraping hs :: evs) = recordsOf evs := rfl

@[simp] lemma recordsOf_append (t u : List Event) :
    recordsOf (t ++ u) = recordsOf t ++ recordsOf u := by
  simp [recordsOf]

@[simp] lemma progressList_nil : progressList [] = [] := rfl

@[simp] lemma progressList_cons_progress (p : Nat) (evs : List Event) :
    progressList (Event.progress p :: evs) = p :: progressList evs := rfl

@[simp] lemma progressList_cons_headline (h : Headline) (evs : List Event) :
    progressList (Event.headlineFound h :: evs) = progressList evs := rfl

@[simp] lemma progressList_cons_error (m : String) (evs : List Event) :
    progressList (Event.errorOccurred m :: evs) = progressList evs := rfl

@[simp] lemma progressList_cons_finished (hs : List Headline)
    (evs : List Event) :
    progressList (Event.finishedScraping hs :: evs) = progressList evs := rfl

@[simp] lemma progressList_append (t u : List Event) :
    progressList (t ++ u) = progressList t ++ progressList u := by
  simp [progressList]

@[simp] lemma errorCount_nil : errorCount [] = 0 := rfl

@[simp] lemma errorCount_cons_progress (p : Nat) (evs : List Event) :
    errorCount (Event.progress p :: evs) = errorCount evs := rfl

@[simp] lemma errorCount_cons_headline (h : Headline) (evs : List Event) :
    errorCount (Event.headlineFound h :: evs) = errorCount evs := rfl

@[simp] lemma errorCount_cons_error (m : String) (evs : List Event) :
    errorCount (Event.errorOccurred m :: evs) = errorCount evs + 1 := rfl

@[simp] lemma errorCount_cons_finished (hs : List Headline)
    (evs : List Event) :
    errorCount (Event.finishedScraping hs :: evs) = errorCount evs := rfl

@[simp] lemma errorCount_append (t u : List Event) :
    errorCount (t ++ u) = errorCount t + errorCount u := by
  simp [errorCount]

@[simp] lemma eventsOf_map_headlineFound (hs : List Headline) :
    eventsOf (hs.map (fun h => Action.emit (Event.headlineFound h))) =
      hs.map Event.headlineFound := by
  induction hs with
  | nil => rfl
  | cons h hs ih => simp [ih]

@[simp] lemma finalsOf_map_headlineFound (hs : List Headline) :
    finalsOf (hs.map Event.headlineFound) = [] := by
  induction hs with
  | nil => rfl
  | cons h hs ih => simp [ih]

@[simp] lemma recordsOf_map_headlineFound (hs : List Headline) :
    recordsOf (hs.map Event.headlineFound) = hs := by
  induction hs with
  | nil => rfl
  | cons h hs ih => simp [ih]

@[simp] lemma progressList_map_headlineFound (hs : List Headline) :
    progressList (hs.map Event.headlineFound) = [] := by
  induction hs with
  | nil => rfl
  | cons h hs ih => simp [ih]

@[simp] lemma errorCount_map_headlineFound (hs : List Headline) :
    errorCount (hs.map Event.headlineFound) = 0 := by
  induction hs with
  | nil => rfl
  | cons h hs ih => simp [ih]

@[simp] lemma sessionIds_nil : sessionIds [] = [] := rfl

@[simp] lemma sessionIds_cons_check (b : Bool) (tr : List Action) :
    sessionIds (Action.checkFlag b :: tr) = sessionIds tr := rfl

@[simp] lemma sessionIds_cons_session (i : Nat) (r : String)
    (tr : List Action) :
    sessionIds (Action.sessionNew i r :: tr) = i :: sessionIds tr := rfl

@[simp] lemma sessionIds_cons_attempt (s n : Nat) (ua : String)
    (st : Option Nat) (tr : List Action) :
    sessionIds (Action.attemptGet s n ua st :: tr) = sessionIds tr := rfl

@[simp] lemma sessionIds_cons_wait (ms : Nat) (tr : List Action) :
    sessionIds (Action.wait ms :: tr) = sessionIds tr := rfl

@[simp] lemma sessionIds_cons_emit (e : Event) (tr : List Action) :
    sessionIds (Action.emit e :: tr) = sessionIds tr := rfl

@[simp] lemma sessionIds_append (t u : List Action) :
    sessionIds (t ++ u) = sessionIds t ++ sessionIds u := by
  simp [sessionIds]

@[simp] lemma sessionIds_map_headlineFound (hs : List Headline) :
    sessionIds (hs.map (fun h => Action.emit (Event.headlineFound h))) = [] := by
  induction hs with
  | nil => rfl
  | cons h hs ih => simp [ih]

@[simp] lemma sessionReferers_nil : sessionReferers [] = [] := rfl

@[simp] lemma sessionReferers_cons_check (b : Bool) (tr : List Action) :
    sessionReferers (Action.checkFlag b :: tr) = sessionReferers tr := rfl

@[simp] lemma sessionReferers_cons_session (i : Nat) (r : String)
    (tr : List Action) :
    sessionReferers (Action.sessionNew i r :: tr) =
      r :: sessionReferers tr := rfl

@[simp] lemma sessionReferers_cons_attempt (s n : Nat) (ua : String)
    (st : Option Nat) (tr : List Action) :
    sessionReferers (Action.attemptGet s n ua st :: tr) =
      sessionReferers tr := rfl

@[simp] lemma sessionReferers_cons_wait (ms : Nat) (tr : List Action) :
    sessionReferers (Action.wait ms :: tr) = sessionReferers tr := rfl

@[simp] lemma sessionReferers_cons_emit (e : Event) (tr : List Action) :
    sessionReferers (Action.emit e :: tr) = sessionReferers tr := rfl

@[simp] lemma sessionReferers_append (t u : List Action) :
    sessionReferers (t ++ u) = sessionReferers t ++ sessionReferers u := by
  simp [sessionReferers]

@[simp] lemma sessionReferers_map_headlineFound (hs : List Headline) :
    sessionReferers (hs.map (fun h => Action.emit (Event.headlineFound h))) =
      [] := by
  induction hs with
  | nil => rfl
  | cons h hs ih => simp [ih]

/-! ## Fetch-trace facts -/

/-- Actions a fetch may produce: attempts and sleeps only. -/
def isFetchAction : Action → Bool
  | Action.attemptGet _ _ _ _ => true
  | Action.wait _ => true
  | _ => false

lemma retryLoop_actions (sid : Nat) (outs : List AttemptOutcome) :
    ∀ (fuel att : Nat) (ua : String) (last : Option Nat),
      (retryLoop sid outs fuel att ua last).1.all isFetchAction = true := by
  intro fuel
  induction fuel with
  | zero => intro att ua last; rfl
  | succ fuel ih =>
    intro att ua last
    rw [retryLoop]
    cases outs.getD att (AttemptOutcome.raises "no response") with
    | status n =>
      by_cases h2 : (n == 200) = true
      · simp [h2, isFetchAction]
      · by_cases h4 : (n == 403) = true
        · simp [h2, h4, isFetchAction, ih]
        · simp [h2, h4, isFetchAction, ih]
    | raises m =>
      by_cases hf : (fuel == 0) = true
      · simp [hf, isFetchAction]
      · simp [hf, isFetchAction, ih]

lemma fetchSource_actions (sid : Nat) (env : SourceEnv) :
    (fetchSource sid env).1.all isFetchAction = true := by
  rw [fetchSource]
  by_cases hh : isHardened env.src = true
  · simp only [hh, if_true, hardenedFetch]
    simp [isFetchAction, retryLoop_actions sid env.outs maxAttempts 0 chromeUA none]
  · rw [if_neg hh]
    rw [standardFetch]
    cases env.outs.getD 0 (AttemptOutcome.raises "no response") with
    | status n => simp [isFetchAction]
    | raises m => simp [isFetchAction]

lemma eventsOf_of_fetchActions :
    ∀ tr : List Action, tr.all isFetchAction = true → eventsOf tr = [] := by
  intro tr
  induction tr with
  | nil => intro _; rfl
  | cons a tr ih =>
    intro h
    rw [List.all_cons, Bool.and_eq_true] at h
    obtain ⟨ha, htr⟩ := h
    cases a <;> simp [isFetchAction] at ha <;> simp [ih htr]

lemma sessionIds_of_fetchActions :
    ∀ tr : List Action, tr.all isFetchAction = true → sessionIds tr = [] := by
  intro tr
  induction tr with
  | nil => intro _; rfl
  | cons a tr ih =>
    intro h
    rw [List.all_cons, Bool.and_eq_true] at h
    obtain ⟨ha, htr⟩ := h
    cases a <;> simp [isFetchAction] at ha <;> simp [ih htr]

lemma sessionReferers_of_fetchActions :
    ∀ tr : List Action, tr.all isFetchAction = true → sessionReferers tr = [] := by
  intro tr
  induction tr with
  | nil => intro _; rfl
  | cons a tr ih =>
    intro h
    rw [List.all_cons, Bool.and_eq_true] at h
    obtain ⟨ha, htr⟩ := h
    cases a <;> simp [isFetchAction] at ha <;> simp [ih htr]

/-- The emitted signals of one source scrape: exactly the per-record
events when it succeeds, nothing when it raises. -/
lemma eventsOf_scrapeTrace (clock : Nat → String) (sid maxH : Nat)
    (env : SourceEnv) :
    eventsOf (scrapeTrace clock sid maxH env) =
      match scrapeResult clock maxH env with
      | Except.ok hs => hs.map Event.headlineFound
      | Except.error _ => [] := by
  rw [scrapeTrace]
  cases h : scrapeResult clock maxH env with
  | ok hs =>
    simp [h, eventsOf_of_fetchActions _ (fetchSource_actions sid env)]
  | error m =>
    simp [h, eventsOf_of_fetchActions _ (fetchSource_actions sid env)]

/-- One source scrape creates exactly one session, carrying the
Referer header derived from the source URL. -/
lemma sessionIds_scrapeTrace (clock : Nat → String) (sid maxH : Nat)
    (env : SourceEnv) :
    sessionIds (scrapeTrace clock sid maxH env) = [sid] := by
  rw [scrapeTrace]
  cases h : scrapeResult clock maxH env with
  | ok hs =>
    simp [h, sessionIds_of_fetchActions _ (fetchSource_actions sid env)]
  | error m =>
    simp [h, sessionIds_of_fetchActions _ (fetchSource_actions sid env)]

lemma sessionReferers_scrapeTrace (clock : Nat → String) (sid maxH : Nat)
    (env : SourceEnv) :
    sessionReferers (scrapeTrace clock sid maxH env) =
      [refererFor env.src] := by
  rw [scrapeTrace]
  cases h : scrapeResult clock maxH env with
  | ok hs =>
    simp [h, sessionReferers_of_fetchActions _ (fetchSource_actions sid env)]
  | error m =>
    simp [h, sessionReferers_of_fetchActions _ (fetchSource_actions sid env)]

/-! ## Orchestrator claims -/

/-- In every reachable tail of the run loop, the terminal events are
exactly one `finished_scraping` whose payload is the accumulator
extended by all records still to be emitted. -/
lemma finals_runLoop (clock : Nat → String) (maxH total : Nat)
    (stopAfter : Option Nat) :
    ∀ (envs : List SourceEnv) (i : Nat) (acc : List Headline),
      finalsOf (eventsOf (runLoop clock maxH total stopAfter envs i acc)) =
        [acc ++
          recordsOf (eventsOf (runLoop clock maxH total stopAfter envs i acc))] := by
  intro envs
  induction envs with
  | nil => intro i acc; simp [runLoop]
  | cons env rest ih =>
    intro i acc
    rw [runLoop]
    by_cases hr : isRunningAt stopAfter i = true
    · rw [if_pos hr]
      cases h : scrapeResult clock maxH env with
      | ok hs =>
        simp only [eventsOf_append, eventsOf_cons_check, eventsOf_cons_emit,
          eventsOf_cons_wait, eventsOf_scrapeTrace, h, finalsOf_append,
          finalsOf_map_headlineFound, finalsOf_cons_progress,
          recordsOf_append, recordsOf_map_headlineFound,
          recordsOf_cons_progress, List.nil_append]
        rw [ih (i + 1) (acc ++ hs)]
        simp [List.append_assoc]
      | error m =>
        simp only [eventsOf_append, eventsOf_cons_check, eventsOf_cons_emit,
          eventsOf_scrapeTrace, h, finalsOf_append,
          finalsOf_cons_error, recordsOf_append, recordsOf_cons_error,
          List.nil_append]
        exact ih (i + 1) acc
    · rw [if_neg hr]
      simp

/-- C10: every run, completed or cancelled, emits exactly one terminal
event, and its payload is exactly the ordered sequence of records
previously emitted as per-record events during the run. -/
theorem claim_C10_terminal_aggregate (clock : Nat → String) (maxH : Nat)
    (envs : List SourceEnv) (stopAfter : Option Nat) :
    finalsOf (eventsOf (runScraper clock maxH envs stopAfter)) =
      [recordsOf (eventsOf (runScraper clock maxH envs stopAfter))] := by
  rw [runScraper]
  simpa using finals_runLoop clock maxH envs.length stopAfter envs 0 []

/-- An uncancelled run emits one error event per failing source. -/
lemma errorCount_runLoop (clock : Nat → String) (maxH total : Nat) :
    ∀ (envs : List SourceEnv) (i : Nat) (acc : List Headline),
      errorCount (eventsOf (runLoop clock maxH total none envs i acc)) =
        envs.countP (failsScrape clock maxH) := by
  intro envs
  induction envs with
  | nil => intro i acc; simp [runLoop]
  | cons env rest ih =>
    intro i acc
    rw [runLoop]
    rw [if_pos (show isRunningAt none i = true from rfl)]
    cases h : scrapeResult clock maxH env with
    | ok hs =>
      simp [eventsOf_scrapeTrace, h, ih (i + 1), List.countP_cons, failsScrape]
    | error m =>
      simp [eventsOf_scrapeTrace, h, ih (i + 1), List.countP_cons, failsScrape]

/-- C1: every per-source fetch or parse error is caught and reported as
exactly one non-fatal error event, and the run continues; concretely, a
three-source run whose middle source times out while the others succeed
still emits its single terminal event carrying both surviving records,
with exactly one error event. -/
theorem claim_C1_nonfatal_source_errors :
    (∀ (clock : Nat → String) (maxH : Nat) (envs : List SourceEnv),
      errorCount (eventsOf (runScraper clock maxH envs none)) =
        envs.countP (failsScrape clock maxH) ∧
      (finalsOf (eventsOf (runScraper clock maxH envs none))).length = 1) ∧
    failsScrape clockT 5 envB = true ∧
    errorCount (eventsOf (runScraper clockT 5 [envA, envB, envC] none)) = 1 ∧
    finalsOf (eventsOf (runScraper clockT 5 [envA, envB, envC] none)) =
      [[hA, hC]] := by
  refine ⟨?_, by decide, by decide, by decide⟩
  intro clock maxH envs
  refine ⟨?_, ?_⟩
  · rw [runScraper]
    exact errorCount_runLoop clock maxH envs.length envs 0 []
  · rw [runScraper, finals_runLoop clock maxH envs.length none envs 0 []]
    rfl

/-- C2 counterexample: a run over one source whose pipeline fails emits
its error event but no progress event at all, contradicting the claim
that progress is reported after every source regardless of outcome. -/
theorem claim_C2_counterexample :
    failsScrape clockT 5 envB = true ∧
    errorCount (eventsOf (runScraper clockT 5 [envB] none)) = 1 ∧
    progressList (eventsOf (runScraper clockT 5 [envB] none)) = [] := by
  decide

/-- Indices of the sources whose scrape succeeds, counting from `i`. -/
def successIndices (clock : Nat → String) (maxH : Nat) :
    List SourceEnv → Nat → List Nat
  | [], _ => []
  | env :: rest, i =>
    if failsScrape clock maxH env then successIndices clock maxH rest (i + 1)
    else i :: successIndices clock maxH rest (i + 1)

/-- Progress events of an uncancelled run come exactly from the
succeeding sources, valued by their position in the source list. -/
lemma progressList_runLoop (clock : Nat → String) (maxH total : Nat) :
    ∀ (envs : List SourceEnv) (i : Nat) (acc : List Headline),
      progressList (eventsOf (runLoop clock maxH total none envs i acc)) =
        (successIndices clock maxH envs i).map
          (fun j => (j + 1) * 100 / total) := by
  intro envs
  induction envs with
  | nil => intro i acc; simp [runLoop, successIndices]
  | cons env rest ih =>
    intro i acc
    rw [runLoop]
    rw [if_pos (show isRunningAt none i = true from rfl)]
    cases h : scrapeResult clock maxH env with
    | ok hs =>
      simp [eventsOf_scrapeTrace, h, ih (i + 1), successIndices, failsScrape]
    | error m =>
      simp [eventsOf_scrapeTrace, h, ih (i + 1), successIndices, failsScrape]

/-- C2 (amended): a progress event equal to
`int((index+1)/totalSources*100)` is emitted only after sources whose
pipeline succeeds; a failed source emits no progress event, although its
position still inflates the value reported after later successes
(sources one and three of three succeeding report 33 then 100). -/
theorem claim_C2_progress_only_on_success :
    (∀ (clock : Nat → String) (maxH : Nat) (envs : List SourceEnv),
      progressList (eventsOf (runScraper clock maxH envs none)) =
        (successIndices clock maxH envs 0).map
          (fun j => (j + 1) * 100 / envs.length)) ∧
    progressList (eventsOf (runScraper clockT 5 [envA, envB, envC] none)) =
      [33, 100] := by
  refine ⟨?_, by decide⟩
  intro clock maxH envs
  rw [runScraper]
  exact progressList_runLoop clock maxH envs.length envs 0 []

/-! ## Hardened fetch claims -/

@[simp] lemma attemptUAs_nil : attemptUAs [] = [] := rfl

@[simp] lemma attemptUAs_cons_check (b : Bool) (tr : List Action) :
    attemptUAs (Action.checkFlag b :: tr) = attemptUAs tr := rfl

@[simp] lemma attemptUAs_cons_session (i : Nat) (r : String)
    (tr : List Action) :
    attemptUAs (Action.sessionNew i r :: tr) = attemptUAs tr := rfl

@[simp] lemma attemptUAs_cons_attempt (s n : Nat) (ua : String)
    (st : Option Nat) (tr : List Action) :
    attemptUAs (Action.attemptGet s n ua st :: tr) = ua :: attemptUAs tr := rfl

@[simp] lemma attemptUAs_cons_wait (ms : Nat) (tr : List Action) :
    attemptUAs (Action.wait ms :: tr) = attemptUAs tr := rfl

@[simp] lemma attemptUAs_cons_emit (e : Event) (tr : List Action) :
    attemptUAs (Action.emit e :: tr) = attemptUAs tr := rfl

/-- Each attempt made by the retry loop consumes one unit of fuel. -/
lemma attemptCount_retryLoop (sid : Nat) (outs : List AttemptOutcome) :
    ∀ (fuel att : Nat) (ua : String) (last : Option Nat),
      attemptCount (retryLoop sid outs fuel att ua last).1 ≤ fuel := by
  intro fuel
  induction fuel with
  | zero => intro att ua last; exact Nat.le_refl 0
  | succ fuel ih =>
    intro att ua last
    rw [retryLoop]
    cases outs.getD att (AttemptOutcome.raises "no response") with
    | status n =>
      by_cases h2 : (n == 200) = true
      · simp [h2, attemptCount]
      · by_cases h4 : (n == 403) = true
        · simpa [h2, h4, attemptCount, Nat.succ_le_succ_iff] using
            ih (att + 1) safariUA (some n)
        · simpa [h2, h4, attemptCount, Nat.succ_le_succ_iff] using
            ih (att + 1) ua (some n)
    | raises m =>
      by_cases hf : (fuel == 0) = true
      · simp [hf, attemptCount]
      · simpa [hf, attemptCount, Nat.succ_le_succ_iff] using
          ih (att + 1) ua last

/-- The backoff discipline of a fetch trace: a 403 response is followed
by the long wait, any other non-200 response by the short wait, a
swallowed transport exception by the middle wait. -/
def backoffOk : List Action → Bool
  | [] => true
  | Action.attemptGet _ _ _ st :: tr =>
    match st with
    | some n =>
      if n == 200 then backoffOk tr
      else
        match tr with
        | Action.wait w :: tr2 =>
          (if n == 403 then w == 3000 else w == 1000) && backoffOk tr2
        | _ => false
    | none =>
      match tr with
      | Action.wait w :: tr2 => (w == 2000) && backoffOk tr2
      | tr2 => backoffOk tr2
  | _ :: tr => backoffOk tr

/-- The retry loop always obeys the backoff discipline. -/
lemma backoffOk_retryLoop (sid : Nat) (outs : List AttemptOutcome) :
    ∀ (fuel att : Nat) (ua : String) (last : Option Nat),
      backoffOk (retryLoop sid outs fuel att ua last).1 = true := by
  intro fuel
  induction fuel with
  | zero => intro att ua last; rfl
  | succ fuel ih =>
    intro att ua last
    rw [retryLoop]
    cases outs.getD att (AttemptOutcome.raises "no response") with
    | status n =>
      by_cases h2 : (n == 200) = true
      · simp [h2, backoffOk]
      · by_cases h4 : (n == 403) = true
        · simp [h2, h4, backoffOk, ih]
        · simp [h2, h4, backoffOk, ih]
    | raises m =>
      by_cases hf : (fuel == 0) = true
      · simp [hf, backoffOk]
      · simp [hf, backoffOk, ih]

/-- The concrete attempt outcomes 403, 403, 200. -/
def outs332 : List AttemptOutcome :=
  [AttemptOutcome.status 403, AttemptOutcome.status 403,
   AttemptOutcome.status 200]

/-- C4: a hardened fetch makes at most three attempts and obeys the
backoff discipline (long wait after a 403, short wait after another
non-200); with 403 on attempts one and two and 200 on attempt three it
succeeds using the alternate User-Agent from attempt two onward; three
non-200 statuses exhaust the attempts and fail with Blocked carrying
the last status. -/
theorem claim_C4_hardened_retry :
    (∀ (sid : Nat) (outs : List AttemptOutcome),
      attemptCount (hardenedFetch sid outs).1 ≤ maxAttempts ∧
      backoffOk (hardenedFetch sid outs).1 = true) ∧
    ((hardenedFetch 0 outs332).2 = FetchOut.ok ∧
      attemptUAs (hardenedFetch 0 outs332).1 =
        [chromeUA, safariUA, safariUA]) ∧
    (∀ (sid a b c : Nat), a ≠ 200 → b ≠ 200 → c ≠ 200 →
      (hardenedFetch sid
        [AttemptOutcome.status a, AttemptOutcome.status b,
         AttemptOutcome.status c]).2 = FetchOut.blocked (some c)) := by
  refine ⟨?_, ⟨by decide, by decide⟩, ?_⟩
  · intro sid outs
    constructor
    · simpa [hardenedFetch, attemptCount] using
        attemptCount_retryLoop sid outs maxAttempts 0 chromeUA none
    · simpa [hardenedFetch, backoffOk] using
        backoffOk_retryLoop sid outs maxAttempts 0 chromeUA none
  · intro sid a b c ha hb hc
    have ha2 : (a == 200) = false := by simpa using ha
    have hb2 : (b == 200) = false := by simpa using hb
    have hc2 : (c == 200) = false := by simpa using hc
    by_cases h4a : (a == 403) = true <;> by_cases h4b : (b == 403) = true <;>
      by_cases h4c : (c == 403) = true <;>
        simp [hardenedFetch, maxAttempts, retryLoop, List.getD,
          ha2, hb2, hc2, h4a, h4b, h4c]

/-- Witness for C4 at concrete inputs. -/
theorem claim_C4_hardened_retry_witness :
    (hardenedFetch 0
      [AttemptOutcome.status 403, AttemptOutcome.status 404,
       AttemptOutcome.status 500]).2 = FetchOut.blocked (some 500) :=
  claim_C4_hardened_retry.2.2 0 403 404 500 (by decide) (by decide)
    (by decide)

/-! ## Cancellation claims -/

/-- Scan for a flag check between consecutive fetch attempts: `seen`
records that an attempt has occurred with no flag check since. -/
def checksBetweenAttempts : List Action → Bool → Bool
  | [], _ => true
  | Action.attemptGet _ _ _ _ :: tr, seen =>
    if seen then false else checksBetweenAttempts tr true
  | Action.checkFlag _ :: tr, _ => checksBetweenAttempts tr false
  | _ :: tr, seen => checksBetweenAttempts tr seen

/-- C7 counterexample: in a run over one hardened source the worker
performs three consecutive fetch attempts with no read of the
cooperative flag between them — the flag is not checked between
fetch-retry attempts. -/
theorem claim_C7_counterexample :
    checksBetweenAttempts (runScraper clockT 5 [envHard] none) false = false ∧
    attemptCount (runScraper clockT 5 [envHard] none) = 3 := by
  decide

/-- Session and attempt actions of one source carry its id. -/
def usesSid (sid : Nat) : Action → Bool
  | Action.sessionNew i _ => i == sid
  | Action.attemptGet s _ _ _ => s == sid
  | _ => true

/-- Session and attempt actions stay below the cancellation point. -/
def actionSourceLt (c : Nat) : Action → Bool
  | Action.sessionNew i _ => decide (i < c)
  | Action.attemptGet s _ _ _ => decide (s < c)
  | _ => true

lemma retryLoop_usesSid (sid : Nat) (outs : List AttemptOutcome) :
    ∀ (fuel att : Nat) (ua : String) (last : Option Nat),
      (retryLoop sid outs fuel att ua last).1.all (usesSid sid) = true := by
  intro fuel
  induction fuel with
  | zero => intro att ua last; rfl
  | succ fuel ih =>
    intro att ua last
    rw [retryLoop]
    cases outs.getD att (AttemptOutcome.raises "no response") with
    | status n =>
      by_cases h2 : (n == 200) = true
      · simp [h2, usesSid]
      · by_cases h4 : (n == 403) = true
        · simp [h2, h4, usesSid, ih]
        · simp [h2, h4, usesSid, ih]
    | raises m =>
      by_cases hf : (fuel == 0) = true
      · simp [hf, usesSid]
      · simp [hf, usesSid, ih]

lemma fetchSource_usesSid (sid : Nat) (env : SourceEnv) :
    (fetchSource sid env).1.all (usesSid sid) = true := by
  rw [fetchSource]
  by_cases hh : isHardened env.src = true
  · simp only [hh, if_true, hardenedFetch]
    simp [usesSid, retryLoop_usesSid sid env.outs maxAttempts 0 chromeUA none]
  · rw [if_neg hh]
    rw [standardFetch]
    cases env.outs.getD 0 (AttemptOutcome.raises "no response") with
    | status n => simp [usesSid]
    | raises m => simp [usesSid]

lemma emits_usesSid (sid : Nat) (hs : List Headline) :
    (hs.map (fun h => Action.emit (Event.headlineFound h))).all
      (usesSid sid) = true := by
  induction hs with
  | nil => rfl
  | cons h hs ih => simp [usesSid, ih]

/-- Every action of one source scrape carries that source's id. -/
lemma scrapeTrace_usesSid (clock : Nat → String) (sid maxH : Nat)
    (env : SourceEnv) :
    (scrapeTrace clock sid maxH env).all (usesSid sid) = true := by
  rw [scrapeTrace]
  cases h : scrapeResult clock maxH env with
  | ok hs =>
    simp [h, usesSid, fetchSource_usesSid sid env, emits_usesSid sid hs]
  | error m =>
    simp [h, usesSid, fetchSource_usesSid sid env]

lemma all_sourceLt_of_usesSid (tr : List Action) (sid c : Nat) (h : sid < c)
    (ha : tr.all (usesSid sid) = true) :
    tr.all (actionSourceLt c) = true := by
  rw [List.all_eq_true] at *
  intro a hmem
  have hu := ha a hmem
  cases a with
  | sessionNew i r =>
    simp only [usesSid, beq_iff_eq] at hu
    subst hu
    simpa [actionSourceLt] using h
  | attemptGet s n ua st =>
    simp only [usesSid, beq_iff_eq] at hu
    subst hu
    simpa [actionSourceLt] using h
  | checkFlag b => rfl
  | wait ms => rfl
  | emit e => rfl

/-- Once the flag is cleared before the c-th check, no action of any
source at position c or beyond appears in the run trace. -/
lemma runLoop_sourceLt (clock : Nat → String) (maxH total c : Nat) :
    ∀ (envs : List SourceEnv) (i : Nat) (acc : List Headline),
      (runLoop clock maxH total (some c) envs i acc).all
        (actionSourceLt c) = true := by
  intro envs
  induction envs with
  | nil => intro i acc; rfl
  | cons env rest ih =>
    intro i acc
    rw [runLoop]
    by_cases hr : isRunningAt (some c) i = true
    · rw [if_pos hr]
      have hic : i < c := by simpa [isRunningAt] using hr
      have hst := all_sourceLt_of_usesSid _ i c hic
        (scrapeTrace_usesSid clock i maxH env)
      cases h : scrapeResult clock maxH env with
      | ok hs =>
        simp [h, actionSourceLt, hst, ih (i + 1) (acc ++ hs)]
      | error m =>
        simp [h, actionSourceLt, hst, ih (i + 1) acc]
    · rw [if_neg hr]
      rfl

/-- Actions that neither read the flag nor create a session. -/
def isNeutral : Action → Bool
  | Action.checkFlag _ => false
  | Action.sessionNew _ _ => false
  | _ => true

/-- Scan checking that every session creation is immediately preceded by
a flag check that read `true`; the Boolean state carries the value of
the directly preceding flag check, if any. -/
def sessionsPrecededByCheck : List Action → Bool → Bool
  | [], _ => true
  | Action.sessionNew _ _ :: tr, prevCheck =>
    prevCheck && sessionsPrecededByCheck tr false
  | Action.checkFlag b :: tr, _ => sessionsPrecededByCheck tr b
  | _ :: tr, _ => sessionsPrecededByCheck tr false

lemma scan_neutral :
    ∀ (mid : List Action), mid.all isNeutral = true →
      ∀ tr, sessionsPrecededByCheck (mid ++ tr) false =
        sessionsPrecededByCheck tr false := by
  intro mid
  induction mid with
  | nil => intro _ tr; rfl
  | cons a mid ih =>
    intro h tr
    rw [List.all_cons, Bool.and_eq_true] at h
    obtain ⟨ha, hmid⟩ := h
    cases a <;> simp [isNeutral] at ha <;>
      simpa [sessionsPrecededByCheck] using ih hmid tr

lemma fetch_neutral (sid : Nat) (env : SourceEnv) :
    (fetchSource sid env).1.all isNeutral = true := by
  have h := fetchSource_actions sid env
  rw [List.all_eq_true] at *
  intro a hmem
  have := h a hmem
  cases a <;> simp [isFetchAction] at this <;> rfl

lemma emits_neutral (hs : List Headline) :
    (hs.map (fun h => Action.emit (Event.headlineFound h))).all
      isNeutral = true := by
  induction hs with
  | nil => rfl
  | cons h hs ih => simp [isNeutral, ih]

/-- In every run trace each session creation is immediately preceded by
a flag check that read `true`. -/
lemma runLoop_checksPrecedeSessions (clock : Nat → String)
    (maxH total : Nat) (stopAfter : Option Nat) :
    ∀ (envs : List SourceEnv) (i : Nat) (acc : List Headline),
      sessionsPrecededByCheck
        (runLoop clock maxH total stopAfter envs i acc) false = true := by
  intro envs
  induction envs with
  | nil => intro i acc; rfl
  | cons env rest ih =>
    intro i acc
    rw [runLoop]
    by_cases hr : isRunningAt stopAfter i = true
    · rw [if_pos hr]
      cases h : scrapeResult clock maxH env with
      | ok hs =>
        simp only [h, scrapeTrace, List.append_eq, List.cons_append,
          List.append_assoc, sessionsPrecededByCheck, Bool.true_and]
        rw [scan_neutral _ (fetch_neutral i env),
          scan_neutral _ (emits_neutral hs)]
        simpa [sessionsPrecededByCheck] using ih (i + 1) (acc ++ hs)
      | error m =>
        simp only [h, scrapeTrace, List.append_eq, List.cons_append,
          List.append_assoc, sessionsPrecededByCheck, Bool.true_and]
        rw [scan_neutral _ (fetch_neutral i env)]
        simpa [sessionsPrecededByCheck] using ih (i + 1) acc
    · rw [if_neg hr]
      rfl

/-- C7 (amended): the cooperative flag is checked immediately before
each source pipeline starts — not between fetch-retry attempts; once
cleared before the c-th check, no source at position c or later
performs any session or fetch action; already-emitted records remain in
the terminal aggregate, and cancelling after source one of two yields a
terminal event carrying exactly source one's records. -/
theorem claim_C7_cooperative_cancellation :
    (∀ (clock : Nat → String) (maxH : Nat) (envs : List SourceEnv) (c : Nat),
      (runScraper clock maxH envs (some c)).all (actionSourceLt c) = true) ∧
    (∀ (clock : Nat → String) (maxH : Nat) (envs : List SourceEnv)
      (stopAfter : Option Nat),
      sessionsPrecededByCheck (runScraper clock maxH envs stopAfter) false =
        true) ∧
    finalsOf (eventsOf (runScraper clockT 5 [envA, envC] (some 1))) =
      [[hA]] ∧
    sessionIds (runScraper clockT 5 [envA, envC] (some 1)) = [0] := by
  refine ⟨?_, ?_, by decide, by decide⟩
  · intro clock maxH envs c
    exact runLoop_sourceLt clock maxH envs.length c envs 0 []
  · intro clock maxH envs stopAfter
    exact runLoop_checksPrecedeSessions clock maxH envs.length stopAfter
      envs 0 []

/-! ## Session claims -/

/-- All sessions of a trace coincide. -/
def usesSingleSession (tr : List Action) : Bool :=
  match sessionIds tr with
  | [] => true
  | i :: rest => rest.all (fun j => j == i)

/-- C8 counterexample: a two-source run creates two distinct sessions
(one per source), so the run does not use a single session for all of
its sources. -/
theorem claim_C8_counterexample :
    usesSingleSession (runScraper clockT 5 [envA, envC] none) = false ∧
    sessionIds (runScraper clockT 5 [envA, envC] none) = [0, 1] := by
  decide

/-- Sessions of an uncancelled run are created per source, in order. -/
lemma sessionIds_runLoop (clock : Nat → String) (maxH total : Nat) :
    ∀ (envs : List SourceEnv) (i : Nat) (acc : List Headline),
      sessionIds (runLoop clock maxH total none envs i acc) =
        List.range' i envs.length := by
  intro envs
  induction envs with
  | nil => intro i acc; simp [runLoop]
  | cons env rest ih =>
    intro i acc
    rw [runLoop]
    rw [if_pos (show isRunningAt none i = true from rfl)]
    cases h : scrapeResult clock maxH env with
    | ok hs =>
      simp [sessionIds_scrapeTrace, ih (i + 1), List.range'_succ]
    | error m =>
      simp [sessionIds_scrapeTrace, ih (i + 1), List.range'_succ]

lemma sessionReferers_runLoop (clock : Nat → String) (maxH total : Nat) :
    ∀ (envs : List SourceEnv) (i : Nat) (acc : List Headline),
      sessionReferers (runLoop clock maxH total none envs i acc) =
        envs.map (fun env => refererFor env.src) := by
  intro envs
  induction envs with
  | nil => intro i acc; simp [runLoop]
  | cons env rest ih =>
    intro i acc
    rw [runLoop]
    rw [if_pos (show isRunningAt none i = true from rfl)]
    cases h : scrapeResult clock maxH env with
    | ok hs =>
      simp [sessionReferers_scrapeTrace, ih (i + 1)]
    | error m =>
      simp [sessionReferers_scrapeTrace, ih (i + 1)]

/-- Scan checking each fetch attempt uses the most recently created
session. -/
def attemptsMatchSession : List Action → Option Nat → Bool
  | [], _ => true
  | Action.sessionNew i _ :: tr, _ => attemptsMatchSession tr (some i)
  | Action.attemptGet s _ _ _ :: tr, cur =>
    (some s == cur) && attemptsMatchSession tr cur
  | _ :: tr, cur => attemptsMatchSession tr cur

lemma attemptsMatch_of_usesSid (sid : Nat) :
    ∀ (mid : List Action), mid.all isFetchAction = true →
      mid.all (usesSid sid) = true →
      ∀ tr, attemptsMatchSession (mid ++ tr) (some sid) =
        attemptsMatchSession tr (some sid) := by
  intro mid
  induction mid with
  | nil => intro _ _ tr; rfl
  | cons a mid ih =>
    intro hf hu tr
    rw [List.all_cons, Bool.and_eq_true] at hf hu
    obtain ⟨hfa, hfm⟩ := hf
    obtain ⟨hua, hum⟩ := hu
    cases a with
    | attemptGet s n ua st =>
      simp only [usesSid, beq_iff_eq] at hua
      subst hua
      simpa [attemptsMatchSession] using ih hfm hum tr
    | wait ms => simpa [attemptsMatchSession] using ih hfm hum tr
    | checkFlag b => simp [isFetchAction] at hfa
    | sessionNew i r => simp [isFetchAction] at hfa
    | emit e => simp [isFetchAction] at hfa

lemma attemptsMatch_emits (hs : List Headline) :
    ∀ (tr : List Action) (cur : Option Nat),
      attemptsMatchSession
        (hs.map (fun h => Action.emit (Event.headlineFound h)) ++ tr) cur =
        attemptsMatchSession tr cur := by
  induction hs with
  | nil => intro tr cur; rfl
  | cons h hs ih => intro tr cur; simpa [attemptsMatchSession] using ih tr cur

/-- Every fetch attempt of a run uses the session created for its
source. -/
lemma runLoop_attemptsMatch (clock : Nat → String) (maxH total : Nat)
    (stopAfter : Option Nat) :
    ∀ (envs : List SourceEnv) (i : Nat) (acc : List Headline)
      (cur : Option Nat),
      attemptsMatchSession (runLoop clock maxH total stopAfter envs i acc)
        cur = true := by
  intro envs
  induction envs with
  | nil => intro i acc cur; rfl
  | cons env rest ih =>
    intro i acc cur
    rw [runLoop]
    by_cases hr : isRunningAt stopAfter i = true
    · rw [if_pos hr]
      cases h : scrapeResult clock maxH env with
      | ok hs =>
        simp only [h, scrapeTrace, List.append_eq, List.cons_append,
          List.append_assoc, attemptsMatchSession]
        rw [attemptsMatch_of_usesSid i _ (fetchSource_actions i env)
          (fetchSource_usesSid i env)]
        rw [attemptsMatch_emits]
        simpa [attemptsMatchSession] using ih (i + 1) (acc ++ hs) (some i)
      | error m =>
        simp only [h, scrapeTrace, List.append_eq, List.cons_append,
          List.append_assoc, attemptsMatchSession]
        rw [attemptsMatch_of_usesSid i _ (fetchSource_actions i env)
          (fetchSource_usesSid i env)]
        simpa [attemptsMatchSession] using ih (i + 1) acc (some i)
    · rw [if_neg hr]
      rfl

/-- C8 (amended): a fresh cookie-carrying session is created for each
source (one per source, shared by that source's retry attempts, neither
global nor one per attempt), and each session's Referer header is the
source URL as produced by `refererFor`. -/
theorem claim_C8_per_source_sessions :
    (∀ (clock : Nat → String) (maxH : Nat) (envs : List SourceEnv),
      sessionIds (runScraper clock maxH envs none) =
        List.range envs.length) ∧
    (∀ (clock : Nat → String) (maxH : Nat) (envs : List SourceEnv)
      (stopAfter : Option Nat),
      attemptsMatchSession (runScraper clock maxH envs stopAfter) none =
        true) ∧
    (∀ (clock : Nat → String) (maxH : Nat) (envs : List SourceEnv),
      sessionReferers (runScraper clock maxH envs none) =
        envs.map (fun env => refererFor env.src)) ∧
    sessionReferers (runScraper clockT 5 [envA, envC] none) =
      ["https://a.example/news", "https://example.com/news"] := by
  refine ⟨?_, ?_, ?_, by decide⟩
  · intro clock maxH envs
    rw [runScraper, sessionIds_runLoop clock maxH envs.length envs 0 [],
      List.range_eq_range']
  · intro clock maxH envs stopAfter
    exact runLoop_attemptsMatch clock maxH envs.length stopAfter envs 0 [] none
  · intro clock maxH envs
    exact sessionReferers_runLoop clock maxH envs.length envs 0 []

end NewsVision
